import Mathlib

/-!
A shallow embedding of three MPD source files and proofs about the claims
of the specification:

* `src/ogg_decode.c` — the Ogg Vorbis decoder loop feeding the shared
  chunk ring buffer (`Buffer`) under `DecoderControl`.
* `src/output/plugins/RecorderOutputPlugin.cxx` — the recorder output
  sink (open / play / send-tag lifecycle around an encoder and a file).
* `src/db/Count.cxx` — grouped song counting.

External collaborators (the vorbis library, the input stream, the OS
`write` call, the encoder plugin) are modelled by oracle parameters that
supply their observable outcomes; everything the repository's own code
does with those outcomes is translated statement by statement.
-/

/-! ## Part 1: the ogg decoder loop (src/ogg_decode.c) -/

/-- Values of `dc->state` (`DECODE_STATE_*`). -/
inductive DecodeState where
  | start
  | decode
  | stop
  | error
deriving DecidableEq, Repr

/-- The decoder-control block shared between player and decoder
(the fields of `DecoderControl` that `ogg_decode` touches). -/
structure DecoderControl where
  state : DecodeState
  start : Bool
  stop : Bool
  seek : Bool
  seekWhere : Int
deriving DecidableEq, Repr

/-- The shared chunk ring buffer (`Buffer * cb`).  Chunk storage is a map
from slot index to the bytes held there; `chunkSize`, `times` and
`bitRate` are the per-slot metadata arrays; `begin`/`end`/`wrap` are the
two cursors and the wrap flag; `totalTime` is set once before the loop. -/
structure OggBuffer where
  chunks : Nat → List Nat
  chunkSize : Nat → Nat
  times : Nat → Int
  bitRate : Nat → Int
  «begin» : Nat
  «end» : Nat
  wrap : Bool
  totalTime : Int

/-- The vorbis handle `vf`, reduced to its observable interaction: the
list of targets passed to `ov_time_seek_page`, in order. -/
structure OggCodec where
  seeks : List Int
deriving DecidableEq, Repr

/-- The local state of the decode loop: the buffer, the codec handle, the
control block, the scratch chunk (`chunk` array up to `chunkpos`) and the
sticky `bitRate` local. -/
structure LoopState where
  cb : OggBuffer
  vf : OggCodec
  dc : DecoderControl
  scratch : List Nat
  bitRate : Int

/-- One oracle entry for an iteration of the read loop: the bytes
`ov_read` delivers (empty list for `ret <= 0`, i.e. end of stream or read
error), the value of `ov_time_tell` and of `ov_bitrate_instant`. -/
structure ReadEvent where
  bytes : List Nat
  tell : Int
  inst : Int

/-- The test `cb->begin == cb->end && cb->wrap` used by the
producer's wait loop. -/
def oggBufferFull (cb : OggBuffer) : Bool :=
  cb.«begin» == cb.«end» && cb.wrap

/-- The seek check at the top of each loop iteration
(`if(dc->seek) { cb->end = cb->begin; cb->wrap = 0; chunkpos = 0;
ov_time_seek_page(&vf,dc->seekWhere); dc->seek = 0; }`). -/
def oggHandleSeek (s : LoopState) : LoopState :=
  if s.dc.seek then
    { s with
      cb := { s.cb with «end» := s.cb.«begin», wrap := false },
      scratch := [],
      vf := { seeks := s.vf.seeks ++ [s.dc.seekWhere] },
      dc := { s.dc with seek := false } }
  else s

/-- Outcome of the chunk-flush block (`if(chunkpos>=CHUNK_SIZE || eof)`
body): the wait loop would spin while the buffer is full and neither flag
is set; then `stop` breaks, `seek` continues, and otherwise the chunk is
copied into slot `end` and the cursor advanced. -/
inductive FlushResult where
  | pushed (s : LoopState)
  | stopped (s : LoopState)
  | seekLoop (s : LoopState)
  | suspended

/-- The state carried by a `FlushResult`, when it carries one. -/
def FlushResult.stateOf : FlushResult → Option LoopState
  | .pushed s => some s
  | .stopped s => some s
  | .seekLoop s => some s
  | .suspended => none

/-- The flush block at lines 143–164 of `ogg_decode.c`: wait while
`cb->begin==cb->end && cb->wrap && !dc->stop && !dc->seek` (in this
sequential model the flags cannot change, so that wait is `suspended`);
then `if(dc->stop) break; else if(dc->seek) continue;` else copy
`chunkpos` bytes into slot `cb->end`, record size, time and bit-rate, and
advance `end`, wrapping to 0 with `wrap=1` when it reaches
`buffered_chunks` (`N`). -/
def oggFlushChunk (N : Nat) (tell inst : Int) (s : LoopState) : FlushResult :=
  if oggBufferFull s.cb && !s.dc.stop && !s.dc.seek then
    .suspended
  else if s.dc.stop then
    .stopped s
  else if s.dc.seek then
    .seekLoop s
  else
    let br := if inst > 0 then inst / 1000 else s.bitRate
    let e := s.cb.«end»
    let cb :=
      { s.cb with
        chunks := fun i => if i = e then s.scratch else s.cb.chunks i,
        chunkSize := fun i => if i = e then s.scratch.length else s.cb.chunkSize i,
        times := fun i => if i = e then tell else s.cb.times i,
        bitRate := fun i => if i = e then br else s.cb.bitRate i }
    let cb :=
      if e + 1 ≥ N then { cb with «end» := 0, wrap := true }
      else { cb with «end» := e + 1 }
    .pushed { s with cb := cb, scratch := [], bitRate := br }

/-- Outcome of one iteration of `while(!eof)`. -/
inductive IterResult where
  | cont (s : LoopState)
  | exitEof (s : LoopState)
  | exitStop (s : LoopState)
  | suspended

/-- The state carried by an `IterResult`, when it carries one. -/
def IterResult.stateOf : IterResult → Option LoopState
  | .cont s => some s
  | .exitEof s => some s
  | .exitStop s => some s
  | .suspended => none

/-- One iteration of the read loop: the seek check, one `ov_read`
(delivering `ev.bytes`; empty means `ret<=0`, which sets `eof`), then the
flush block when the scratch chunk is full or `eof`.  A flush-time `seek`
does `continue`, which leaves the loop anyway when `eof` is set. -/
def oggLoopIter (N CS : Nat) (ev : ReadEvent) (s : LoopState) : IterResult :=
  let s := oggHandleSeek s
  let eof := ev.bytes.isEmpty
  let s := { s with scratch := s.scratch ++ ev.bytes }
  if s.scratch.length ≥ CS || eof then
    match oggFlushChunk N ev.tell ev.inst s with
    | .suspended => .suspended
    | .stopped s => .exitStop s
    | .seekLoop s => if eof then .exitEof s else .cont s
    | .pushed s => if eof then .exitEof s else .cont s
  else
    .cont s

/-- The code after the loop (lines 170–176): clear a leftover `seek`
request, then set the state to `DECODE_STATE_STOP`, clearing `stop` if it
was set. -/
def oggAfterLoop (dc : DecoderControl) : DecoderControl :=
  let dc := if dc.seek then { dc with seek := false } else dc
  if dc.stop then { dc with state := .stop, stop := false }
  else { dc with state := .stop }

/-- The whole `while(!eof)` loop, driven by the oracle list of read
events.  Returns `none` when the model cannot proceed sequentially (the
wait loop would spin with no consumer, or the oracle ran out). -/
def oggDecodeLoop (N CS : Nat) : List ReadEvent → LoopState → Option LoopState
  | [], _ => none
  | ev :: rest, s =>
    match oggLoopIter N CS ev s with
    | .cont s' => oggDecodeLoop N CS rest s'
    | .exitEof s' => some { s' with dc := oggAfterLoop s'.dc }
    | .exitStop s' => some { s' with dc := oggAfterLoop s'.dc }
    | .suspended => none

/-- Fields of `vorbis_info` read by `ogg_decode`. -/
structure VorbisInfo where
  channels : Int
  rate : Int
deriving DecidableEq, Repr

/-- The caller's `AudioFormat`. -/
structure AudioFormat where
  bits : Int
  channels : Int
  sampleRate : Int
deriving DecidableEq, Repr

/-- Result of `ogg_decode`: the C return value, a flag marking that the
sequential model could not finish the loop, and the final audio format,
buffer and control block. -/
structure OggOutcome where
  ret : Int
  hung : Bool
  af : AudioFormat
  cb : OggBuffer
  dc : DecoderControl

/-- Function `ogg_decode(cb, af, dc)`.  Here `openOk` is the outcome of
`openInputStreamFromFile`, `ovOpenOk` of `ov_open_callbacks`; on either
failure the function logs and returns `-1` having touched nothing else.
Otherwise it publishes the negotiated format, the total time and the
`DECODE` state and runs the read loop. -/
def ogg_decode (N CS : Nat) (openOk ovOpenOk : Bool) (vi : VorbisInfo)
    (timeTotal : Int) (reads : List ReadEvent)
    (cb0 : OggBuffer) (af0 : AudioFormat) (dc0 : DecoderControl) : OggOutcome :=
  if !openOk then ⟨-1, false, af0, cb0, dc0⟩
  else if !ovOpenOk then ⟨-1, false, af0, cb0, dc0⟩
  else
    let af : AudioFormat := { bits := 16, channels := vi.channels, sampleRate := vi.rate }
    let cb := { cb0 with totalTime := timeTotal }
    let dc := { dc0 with state := .decode, start := false }
    match oggDecodeLoop N CS reads ⟨cb, ⟨[]⟩, dc, [], 0⟩ with
    | some s => ⟨0, false, af, s.cb, s.dc⟩
    | none => ⟨0, true, af, cb, dc⟩

/-! ## Part 2: the recorder output sink
(src/output/plugins/RecorderOutputPlugin.cxx) -/

/-- One outcome of the OS `write(2)` call inside
`RecorderOutput::WriteToFile`: a (possibly short) successful write of `n`
bytes, an interrupted call (`errno == EINTR`, retried), or a failing call
with any other `errno`. -/
inductive WriteRes where
  | wrote (n : Nat)
  | eintr
  | werr
deriving DecidableEq, Repr

/-- Method `RecorderOutput::WriteToFile(data, length)`: loop calling `write`
until all of `data` went out; `write` returning `0` is an error, `EINTR`
retries, any other failure stops with an error.  Returns whether it
succeeded, the bytes that actually reached the file (in order), and the
unconsumed write-outcome oracle. -/
def writeToFile : List WriteRes → List Nat → Bool × List Nat × List WriteRes
  | [], _ => (false, [], [])
  | .wrote n :: rest, data =>
    if n = 0 then (false, [], rest)
    else
      let taken := data.take n
      let remaining := data.drop n
      if remaining.isEmpty then (true, taken, rest)
      else
        let r := writeToFile rest remaining
        (r.1, taken ++ r.2.1, r.2.2)
  | .eintr :: rest, data => writeToFile rest data
  | .werr :: rest, _ => (false, [], rest)

/-- The encoder instance owned by the recorder, reduced to its observable
state: whether it is open, and the already-encoded bytes pending for
`encoder_read`.

Modelled from the spec: the encoder plugin implementations are not under
`src/`; §4.4 specifies `Read(out_buffer) -> bytes_written` as draining
already-encoded pending bytes, returning 0 when nothing is pending. -/
structure RecEncoder where
  isOpen : Bool
  pending : List Nat
deriving DecidableEq, Repr

/-- Modelled from the spec: `encoder_read(encoder, buffer, bufSize)`
drains up to `bufSize` pending bytes (§4.4 `Read`). -/
def encoder_read (bufSize : Nat) (e : RecEncoder) : List Nat × RecEncoder :=
  (e.pending.take bufSize, ⟨e.isOpen, e.pending.drop bufSize⟩)

/-- Method `RecorderOutput::EncoderToFile()`: repeatedly `encoder_read` into the
32768-byte buffer; a read of 0 bytes means done; otherwise write the
chunk to the file and continue.  Returns success, the final encoder, the
file contents, and the remaining write oracle. -/
def encoderToFile (oracle : List WriteRes) (e : RecEncoder) (file : List Nat) :
    Bool × RecEncoder × List Nat × List WriteRes :=
  let r := encoder_read 32768 e
  if h : r.1.isEmpty then (true, r.2, file, oracle)
  else
    let w := writeToFile oracle r.1
    let file' := file ++ w.2.1
    if w.1 then encoderToFile w.2.2 r.2 file'
    else (false, r.2, file', w.2.2)
termination_by e.pending.length
decreasing_by
  have h1 : e.pending ≠ [] := by
    intro he
    apply h
    show (e.pending.take 32768).isEmpty = true
    simp [he]
  show (e.pending.drop 32768).length < e.pending.length
  have h2 : 0 < e.pending.length := List.length_pos.mpr h1
  simp only [List.length_drop]
  omega

/-- The recorder sink's externally visible state: whether the destination
file exists on disk, whether the descriptor is open, the bytes written to
the file, and the encoder instance. -/
structure RecorderState where
  fileExists : Bool
  fdOpen : Bool
  fileBytes : List Nat
  enc : RecEncoder
deriving DecidableEq, Repr

/-- Modelled from the spec: `encoder_open(encoder, fmt)` (§4.4 `Open`);
on success the encoder is open and may immediately have header bytes
pending (§4.5 step 3 drains them). -/
def encoder_open (ok : Bool) (headerBytes : List Nat) (e : RecEncoder) :
    Bool × RecEncoder :=
  if ok then (true, { isOpen := true, pending := headerBytes }) else (false, e)

/-- Modelled from the spec: `encoder_close` closes the encoder (§4.4). -/
def encoder_close (_e : RecEncoder) : RecEncoder :=
  { isOpen := false, pending := [] }

/-- Method `RecorderOutput::Open(fmt)`: create/truncate the destination file,
open the encoder, drain initial encoder output to the file; on a failure
at step 2 close the fd and remove the file, on a failure at step 3 also
close the encoder first. -/
def recorderOpen (openFileOk encOpenOk : Bool) (headerBytes : List Nat)
    (oracle : List WriteRes) (st : RecorderState) : Bool × RecorderState :=
  if !openFileOk then (false, st)
  else
    let o := encoder_open encOpenOk headerBytes st.enc
    if !o.1 then (false, ⟨false, false, [], o.2⟩)
    else
      let d := encoderToFile oracle o.2 []
      if d.1 then (true, ⟨true, true, d.2.2.1, d.2.1⟩)
      else (false, ⟨false, false, [], encoder_close d.2.1⟩)

/-- Modelled from the spec: `encoder_write(encoder, chunk, size)` feeds
raw samples in (§4.4 `Write`); on success the encoder may turn them into
pending encoded bytes (`produced`). -/
def encoder_write (ok : Bool) (produced : List Nat) (e : RecEncoder) :
    Bool × RecEncoder :=
  if ok then (true, ⟨e.isOpen, e.pending ++ produced⟩) else (false, e)

/-- Method `RecorderOutput::Play(chunk, size)`:
`encoder_write(...) && EncoderToFile(...) ? size : 0`. -/
def recorderPlay (writeOk : Bool) (produced : List Nat) (oracle : List WriteRes)
    (size : Nat) (st : RecorderState) : Nat × RecorderState :=
  let w := encoder_write writeOk produced st.enc
  if w.1 then
    let d := encoderToFile oracle w.2 st.fileBytes
    (if d.1 then size else 0, ⟨st.fileExists, st.fdOpen, d.2.2.1, d.2.1⟩)
  else (0, ⟨st.fileExists, st.fdOpen, st.fileBytes, w.2⟩)

/-- Modelled from the spec: `encoder_pre_tag` (§4.4 `PreTag`), a flush
hook that may leave bytes pending for the drain that must follow. -/
def encoder_pre_tag (ok : Bool) (flushBytes : List Nat) (e : RecEncoder) :
    Bool × RecEncoder :=
  if ok then (true, ⟨e.isOpen, e.pending ++ flushBytes⟩) else (false, e)

/-- Modelled from the spec: `encoder_tag` (§4.4 `Tag`), the annotate hook
called after the drain; it may leave new bytes pending. -/
def encoder_tag (ok : Bool) (tagBytes : List Nat) (e : RecEncoder) :
    Bool × RecEncoder :=
  if ok then (true, ⟨e.isOpen, e.pending ++ tagBytes⟩) else (false, e)

/-- Method `RecorderOutput::SendTag(tag)`:
`if (!encoder_pre_tag(...) || !EncoderToFile(...) || !encoder_tag(...))
LogError(error);` — returns the new state and whether an error was
logged; nothing is closed and no error is returned to the caller. -/
def recorderSendTag (preOk : Bool) (preBytes : List Nat) (oracle : List WriteRes)
    (tagOk : Bool) (tagBytes : List Nat) (st : RecorderState) :
    RecorderState × Bool :=
  let p := encoder_pre_tag preOk preBytes st.enc
  if !p.1 then (⟨st.fileExists, st.fdOpen, st.fileBytes, p.2⟩, true)
  else
    let d := encoderToFile oracle p.2 st.fileBytes
    if !d.1 then (⟨st.fileExists, st.fdOpen, d.2.2.1, d.2.1⟩, true)
    else
      let t := encoder_tag tagOk tagBytes d.2.1
      if !t.1 then (⟨st.fileExists, st.fdOpen, d.2.2.1, t.2⟩, true)
      else (⟨st.fileExists, st.fdOpen, d.2.2.1, t.2⟩, false)

/-! ## Part 3: grouped song counting (src/db/Count.cxx) -/

/-- The tag item types the counting code distinguishes
(`TAG_ALBUM_ARTIST`, `TAG_ARTIST`, and others). -/
inductive TagType where
  | artist
  | albumArtist
  | album
  | title
  | genre
deriving DecidableEq, Repr

/-- One `TagItem`: a type and a value. -/
structure TagItem where
  type : TagType
  value : String
deriving DecidableEq, Repr

/-- A `Tag`: its item list and the song duration (negative = unknown,
`duration.IsNegative()`). -/
structure MpdTag where
  items : List TagItem
  duration : Int
deriving DecidableEq, Repr

/-- Struct `SearchStats`: number of songs and accumulated play time. -/
structure SearchStats where
  n_songs : Nat
  total_duration : Int
deriving DecidableEq, Repr

/-- Type `TagCountMap`: `std::map<std::string, SearchStats>` as a partial map
from group value to stats. -/
def TagCountMap : Type := String → Option SearchStats

/-- A `LightSong` as the visitor sees it (its tag; the code asserts the
tag pointer is non-null). -/
structure LightSong where
  tag : MpdTag

/-- The `for (const auto &item : tag)` loop of `CollectGroupCounts`,
carrying the `found` flag and the map: for each item whose type matches
the group, insert-or-find the entry for its value, increment `n_songs`,
and add `tag.duration` unless it is negative. -/
def collectLoop (group : TagType) (dur : Int) :
    List TagItem → Bool → TagCountMap → Bool × TagCountMap
  | [], found, m => (found, m)
  | item :: rest, found, m =>
    if item.type = group then
      let s := (m item.value).getD ⟨0, 0⟩
      let s' : SearchStats :=
        ⟨s.n_songs + 1,
         if dur < 0 then s.total_duration else s.total_duration + dur⟩
      collectLoop group dur rest true
        (fun k => if k = item.value then some s' else m k)
    else
      collectLoop group dur rest found m

/-- Function `CollectGroupCounts(map, group, tag)`. -/
def CollectGroupCounts (m : TagCountMap) (group : TagType) (tag : MpdTag) :
    Bool × TagCountMap :=
  collectLoop group tag.duration tag.items false m

/-- Function `GroupCountVisitor(map, group, song)`: collect under `group`; if
nothing was found and the group is `AlbumArtist`, fall back to
collecting under `Artist`. -/
def GroupCountVisitor (m : TagCountMap) (group : TagType) (song : LightSong) :
    TagCountMap :=
  let r := CollectGroupCounts m group song.tag
  if r.1 = false ∧ group = .albumArtist then
    (CollectGroupCounts r.2 .artist song.tag).2
  else r.2

/-- How many items of `items` have the given type and value. -/
def occCount (group : TagType) (v : String) : List TagItem → Nat
  | [] => 0
  | it :: rest => (if it.type = group ∧ it.value = v then 1 else 0) + occCount group v rest

/-! ## Concrete example states used by counterexamples and witnesses -/

/-- A buffer with `begin = 1`, `end = 3`, not wrapped, empty slots. -/
def cbC1 : OggBuffer :=
  { chunks := fun _ => [], chunkSize := fun _ => 0, times := fun _ => 0,
    bitRate := fun _ => 0, «begin» := 1, «end» := 3, wrap := false, totalTime := 0 }

/-- A control block in `DECODE` state with no pending requests. -/
def dcQuiet : DecoderControl := ⟨.decode, false, false, false, 0⟩

/-- Loop state about to flush a one-byte chunk into slot 3 of a 4-slot
buffer whose `begin` cursor is 1. -/
def sC1 : LoopState := ⟨cbC1, ⟨[]⟩, dcQuiet, [7], 0⟩

/-- The state `oggFlushChunk 4 0 0 sC1` pushes: the one-byte chunk stored
in slot 3, `end` wrapped to 0, `wrap` set. -/
def sC1push : LoopState :=
  { cb := { chunks := fun i => if i = 3 then [7] else [],
            chunkSize := fun i => if i = 3 then 1 else 0,
            times := fun i => if i = 3 then 0 else 0,
            bitRate := fun i => if i = 3 then 0 else 0,
            «begin» := 1, «end» := 0, wrap := true, totalTime := 0 },
    vf := ⟨[]⟩, dc := dcQuiet, scratch := [], bitRate := 0 }

/-! ## Claim C1 -/

/-- Counterexample to C1.  With `buffered_chunks = 4`, `begin = 1`,
`end = 3`, pushing the finished chunk wraps `end` to 0 and sets `wrap`,
yet the advanced `end` cursor (0) does not equal the `begin` cursor (1):
the wrap flag is set when `end` crosses the array boundary, not exactly
when it has wrapped around to equal `begin`. -/
theorem C1_counterexample :
    ((oggFlushChunk 4 0 0 sC1).stateOf.map
        fun t => (t.cb.wrap, t.cb.«end» == t.cb.«begin»)) = some (true, false) := by
  decide

/-- C1 (amended): for every push of a finished chunk by the decoder loop,
the buffer's end cursor is advanced modulo the chunk count `N`, the begin
cursor is untouched, and the wrap flag is set to true exactly when the
incremented end cursor reached `N` (wrapped around to slot 0); otherwise
it keeps its previous value. -/
theorem C1_push_advances_end_mod_N (N : Nat) (tell inst : Int) (s t : LoopState)
    (hN : s.cb.«end» < N)
    (hp : oggFlushChunk N tell inst s = .pushed t) :
    t.cb.«end» = (s.cb.«end» + 1) % N ∧
    t.cb.wrap = (s.cb.wrap || decide (s.cb.«end» + 1 = N)) ∧
    t.cb.«begin» = s.cb.«begin» := by
  unfold oggFlushChunk at hp
  by_cases h1 : (oggBufferFull s.cb && !s.dc.stop && !s.dc.seek) = true
  · rw [if_pos h1] at hp
    exact absurd hp (by simp)
  · rw [if_neg h1] at hp
    by_cases h2 : s.dc.stop = true
    · rw [if_pos h2] at hp
      exact absurd hp (by simp)
    · rw [if_neg h2] at hp
      by_cases h3 : s.dc.seek = true
      · rw [if_pos h3] at hp
        exact absurd hp (by simp)
      · rw [if_neg h3] at hp
        simp only [FlushResult.pushed.injEq] at hp
        subst hp
        dsimp only
        by_cases h4 : s.cb.«end» + 1 ≥ N
        · rw [if_pos h4]
          have hEq : s.cb.«end» + 1 = N := le_antisymm hN h4
          refine ⟨by rw [hEq, Nat.mod_self], ?_, rfl⟩
          rw [hEq]
          simp
        · rw [if_neg h4]
          have hLt : s.cb.«end» + 1 < N := lt_of_not_ge h4
          refine ⟨by rw [Nat.mod_eq_of_lt hLt], ?_, rfl⟩
          have hd : decide (s.cb.«end» + 1 = N) = false :=
            decide_eq_false (Nat.ne_of_lt hLt)
          rw [hd, Bool.or_false]

/-- Witness for C1's amended theorem at `N = 4`, `end = 3`, `begin = 1`:
the push wraps `end` to `(3+1) % 4 = 0`, sets `wrap` and keeps `begin`. -/
theorem C1_witness :
    sC1.cb.«end» < 4 ∧
    (sC1push.cb.«end» = (sC1.cb.«end» + 1) % 4 ∧
     sC1push.cb.wrap = (sC1.cb.wrap || decide (sC1.cb.«end» + 1 = 4)) ∧
     sC1push.cb.«begin» = sC1.cb.«begin») :=
  ⟨by decide, C1_push_advances_end_mod_N 4 0 0 sC1 sC1push (by decide) rfl⟩

/-! ## Claim C2 -/

/-- A buffer with `begin = end = 2` would be produced by the seek
handling from this one (`begin = 2`, `end = 3`, wrapped). -/
def cbC2 : OggBuffer :=
  { chunks := fun _ => [], chunkSize := fun _ => 0, times := fun _ => 0,
    bitRate := fun _ => 0, «begin» := 2, «end» := 3, wrap := true, totalTime := 0 }

/-- Loop state with a pending seek to 9 and a partial chunk in flight. -/
def sC2 : LoopState := ⟨cbC2, ⟨[]⟩, ⟨.decode, false, false, true, 9⟩, [1, 2], 0⟩

/-- Counterexample to C2.  When the decoder loop observes `seek` with
`begin = 2`, the reset it performs leaves `begin = 2` and sets
`end := begin = 2`: the buffer becomes empty, but the cursors are not set
to `begin = 0, end = 0` as the claim states. -/
theorem C2_counterexample :
    (oggHandleSeek sC2).cb.«begin» = 2 ∧
    ¬((oggHandleSeek sC2).cb.«begin» = 0 ∧ (oggHandleSeek sC2).cb.«end» = 0) := by
  decide

/-- C2 (amended): whenever the decoder loop observes the seek flag set,
it empties the ring buffer by setting `end := begin` and `wrap := false`
(the `begin` cursor keeps its value; the cursors are not zeroed),
discards the in-flight partial chunk, repositions the codec to the seek
target, and clears the seek flag. -/
theorem C2_seek_empties_buffer (s : LoopState) (h : s.dc.seek = true) :
    (oggHandleSeek s).cb.«end» = s.cb.«begin» ∧
    (oggHandleSeek s).cb.«begin» = s.cb.«begin» ∧
    (oggHandleSeek s).cb.wrap = false ∧
    (oggHandleSeek s).scratch = [] ∧
    (oggHandleSeek s).vf.seeks = s.vf.seeks ++ [s.dc.seekWhere] ∧
    (oggHandleSeek s).dc.seek = false ∧
    (oggHandleSeek s).dc.stop = s.dc.stop ∧
    (oggHandleSeek s).dc.state = s.dc.state := by
  simp [oggHandleSeek, h]

/-- Witness for C2's amended theorem on the concrete state `sC2`. -/
theorem C2_witness :
    sC2.dc.seek = true ∧
    ((oggHandleSeek sC2).cb.«end» = sC2.cb.«begin» ∧
     (oggHandleSeek sC2).cb.«begin» = sC2.cb.«begin» ∧
     (oggHandleSeek sC2).cb.wrap = false ∧
     (oggHandleSeek sC2).scratch = [] ∧
     (oggHandleSeek sC2).vf.seeks = sC2.vf.seeks ++ [sC2.dc.seekWhere] ∧
     (oggHandleSeek sC2).dc.seek = false ∧
     (oggHandleSeek sC2).dc.stop = sC2.dc.stop ∧
     (oggHandleSeek sC2).dc.state = sC2.dc.state) :=
  ⟨rfl, C2_seek_empties_buffer sC2 rfl⟩

/-! ## Claim C3 -/

/-- An empty, unwrapped buffer with zeroed cursors. -/
def cbC3 : OggBuffer :=
  { chunks := fun _ => [], chunkSize := fun _ => 0, times := fun _ => 0,
    bitRate := fun _ => 0, «begin» := 0, «end» := 0, wrap := false, totalTime := 0 }

/-- Loop state in which both `stop` and `seek` (target 9) are pending. -/
def sC3 : LoopState := ⟨cbC3, ⟨[]⟩, ⟨.decode, false, true, true, 9⟩, [], 0⟩

/-- The state in which the iteration on `sC3` exits: the codec has been
repositioned to 9 and `seek` cleared, while `stop` is still pending. -/
def sC3exit : LoopState := ⟨cbC3, ⟨[9]⟩, ⟨.decode, false, true, false, 9⟩, [], 0⟩

/-- A flush result that carries a state keeps `vf` (the codec handle is
not touched by the flush block). -/
theorem oggFlushChunk_stateOf_vf {N : Nat} {tell inst : Int} {s t : LoopState}
    (h : (oggFlushChunk N tell inst s).stateOf = some t) : t.vf = s.vf := by
  unfold oggFlushChunk at h
  by_cases h1 : (oggBufferFull s.cb && !s.dc.stop && !s.dc.seek) = true
  · rw [if_pos h1] at h
    exact absurd h (by simp [FlushResult.stateOf])
  · rw [if_neg h1] at h
    by_cases h2 : s.dc.stop = true
    · rw [if_pos h2] at h
      simp only [FlushResult.stateOf, Option.some.injEq] at h
      subst h; rfl
    · rw [if_neg h2] at h
      by_cases h3 : s.dc.seek = true
      · rw [if_pos h3] at h
        simp only [FlushResult.stateOf, Option.some.injEq] at h
        subst h; rfl
      · rw [if_neg h3] at h
        simp only [FlushResult.stateOf, Option.some.injEq] at h
        subst h; rfl

/-- An iteration result that carries a state keeps the codec handle
produced by the seek check at the top of the iteration. -/
theorem oggLoopIter_stateOf_vf {N CS : Nat} {ev : ReadEvent} {s t : LoopState}
    (h : (oggLoopIter N CS ev s).stateOf = some t) : t.vf = (oggHandleSeek s).vf := by
  unfold oggLoopIter oggFlushChunk at h
  dsimp only at h
  by_cases hcond :
      (decide (((oggHandleSeek s).scratch ++ ev.bytes).length ≥ CS) || ev.bytes.isEmpty) = true
  · rw [if_pos hcond] at h
    by_cases h1 : (oggBufferFull (oggHandleSeek s).cb &&
        !(oggHandleSeek s).dc.stop && !(oggHandleSeek s).dc.seek) = true
    · rw [if_pos h1] at h
      simp [IterResult.stateOf] at h
    · rw [if_neg h1] at h
      by_cases h2 : (oggHandleSeek s).dc.stop = true
      · rw [if_pos h2] at h
        dsimp only at h
        simp only [IterResult.stateOf, Option.some.injEq] at h
        subst h
        rfl
      · rw [if_neg h2] at h
        by_cases h3 : (oggHandleSeek s).dc.seek = true
        · rw [if_pos h3] at h
          dsimp only at h
          by_cases heof : ev.bytes.isEmpty = true
          · rw [if_pos heof] at h
            simp only [IterResult.stateOf, Option.some.injEq] at h
            subst h
            rfl
          · rw [if_neg heof] at h
            simp only [IterResult.stateOf, Option.some.injEq] at h
            subst h
            rfl
        · rw [if_neg h3] at h
          dsimp only at h
          by_cases heof : ev.bytes.isEmpty = true
          · rw [if_pos heof] at h
            simp only [IterResult.stateOf, Option.some.injEq] at h
            subst h
            rfl
          · rw [if_neg heof] at h
            simp only [IterResult.stateOf, Option.some.injEq] at h
            subst h
            rfl
  · rw [if_neg hcond] at h
    simp only [IterResult.stateOf, Option.some.injEq] at h
    subst h
    rfl

/-- Counterexample to C3.  In state `sC3` both `stop` and `seek` are
pending when the decoder loop next observes the control flags (the
top-of-iteration seek check); the iteration repositions the codec to the
seek target 9 anyway, and only then exits on `stop`: a seek IS honored
after `stop` is set. -/
theorem C3_counterexample :
    ((oggLoopIter 4 8 ⟨[], 0, 0⟩ sC3).stateOf.map fun t => t.vf.seeks) = some [9] := by
  decide

/-- C3 (amended): `stop` takes precedence over `seek` only at the
chunk-boundary flush check — there, a pending `stop` makes the loop break
with no chunk pushed and no codec repositioning; but when the flags are
observed at the top-of-iteration seek check, a pending seek is honored
(the codec is repositioned to the target) even while `stop` is also
pending. -/
theorem C3_stop_precedence_only_at_flush :
    (∀ (N : Nat) (tell inst : Int) (s : LoopState), s.dc.stop = true →
        oggFlushChunk N tell inst s = .stopped s) ∧
    (∀ (N CS : Nat) (ev : ReadEvent) (s : LoopState), s.dc.seek = true →
        ∀ t, (oggLoopIter N CS ev s).stateOf = some t →
          t.vf.seeks = s.vf.seeks ++ [s.dc.seekWhere]) := by
  constructor
  · intro N tell inst s h
    unfold oggFlushChunk
    simp [h]
  · intro N CS ev s h t ht
    have hv := oggLoopIter_stateOf_vf ht
    rw [hv]
    unfold oggHandleSeek
    simp [h]

/-- Witness for C3's amended theorem on `sC3` (both flags pending): the
flush check exits on `stop` without touching anything, while the
iteration containing the top-of-loop seek check repositions to 9. -/
theorem C3_witness :
    sC3.dc.stop = true ∧ sC3.dc.seek = true ∧
    oggFlushChunk 4 0 0 sC3 = FlushResult.stopped sC3 ∧
    sC3exit.vf.seeks = sC3.vf.seeks ++ [sC3.dc.seekWhere] :=
  ⟨rfl, rfl, C3_stop_precedence_only_at_flush.1 4 0 0 sC3 rfl,
   C3_stop_precedence_only_at_flush.2 4 8 ⟨[], 0, 0⟩ sC3 rfl sC3exit rfl⟩

/-! ## Claim C4 -/

/-- A full buffer: `begin = end = 2` with `wrap` set. -/
def cbC4 : OggBuffer :=
  { chunks := fun _ => [], chunkSize := fun _ => 0, times := fun _ => 0,
    bitRate := fun _ => 0, «begin» := 2, «end» := 2, wrap := true, totalTime := 0 }

/-- Loop state at the flush point with a full buffer and no flags set. -/
def sC4 : LoopState := ⟨cbC4, ⟨[]⟩, dcQuiet, [1], 0⟩

/-- C4: the decoder loop never writes a chunk into the ring buffer while
the buffer is full (`begin == end` with `wrap` set): when the buffer is
full and neither `stop` nor `seek` is set the flush block suspends
(retrying rather than overwriting), and whenever a chunk is actually
pushed the buffer was not full. -/
theorem C4_no_push_when_full (N : Nat) (tell inst : Int) (s : LoopState) :
    (oggBufferFull s.cb = true → s.dc.stop = false → s.dc.seek = false →
      oggFlushChunk N tell inst s = .suspended) ∧
    (∀ t, oggFlushChunk N tell inst s = .pushed t → oggBufferFull s.cb = false) := by
  constructor
  · intro hf hstop hseek
    unfold oggFlushChunk
    simp [hf, hstop, hseek]
  · intro t hp
    by_cases hf : oggBufferFull s.cb = true
    · unfold oggFlushChunk at hp
      by_cases h2 : s.dc.stop = true
      · have h1 : (oggBufferFull s.cb && !s.dc.stop && !s.dc.seek) = false := by
          simp [h2]
        rw [h1] at hp
        rw [if_neg (by simp)] at hp
        rw [if_pos h2] at hp
        exact absurd hp (by simp)
      · by_cases h3 : s.dc.seek = true
        · have h1 : (oggBufferFull s.cb && !s.dc.stop && !s.dc.seek) = false := by
            simp [h3]
          rw [h1] at hp
          rw [if_neg (by simp)] at hp
          rw [if_neg h2] at hp
          rw [if_pos h3] at hp
          exact absurd hp (by simp)
        · have h1 : (oggBufferFull s.cb && !s.dc.stop && !s.dc.seek) = true := by
            simp [hf, Bool.of_not_eq_true h2, Bool.of_not_eq_true h3]
          rw [if_pos h1] at hp
          exact absurd hp (by simp)
    · exact Bool.of_not_eq_true hf

/-- Witness for C4 on the concrete full buffer `sC4`: with no flags set
the flush block suspends. -/
theorem C4_witness :
    oggBufferFull sC4.cb = true ∧ sC4.dc.stop = false ∧ sC4.dc.seek = false ∧
    oggFlushChunk 4 0 0 sC4 = FlushResult.suspended :=
  ⟨rfl, rfl, rfl, (C4_no_push_when_full 4 0 0 sC4).1 rfl rfl rfl⟩

/-! ## Claim C5 -/

/-- Lemma: `oggAfterLoop` always leaves the control block in the `STOP` state. -/
theorem oggAfterLoop_state (dc : DecoderControl) :
    (oggAfterLoop dc).state = DecodeState.stop := by
  unfold oggAfterLoop
  by_cases hs : dc.seek = true
  · rw [if_pos hs]
    dsimp only
    by_cases ht : dc.stop = true <;> simp [ht]
  · rw [if_neg hs]
    dsimp only
    by_cases ht : dc.stop = true <;> simp [ht]

/-- Whenever the decode loop terminates normally, the final control state
is `STOP` (the after-loop code runs on both exit paths). -/
theorem oggDecodeLoop_stop (N CS : Nat) :
    ∀ (reads : List ReadEvent) (s t : LoopState),
      oggDecodeLoop N CS reads s = some t → t.dc.state = DecodeState.stop := by
  intro reads
  induction reads with
  | nil =>
    intro s t h
    exact absurd h (by simp [oggDecodeLoop])
  | cons ev rest ih =>
    intro s t h
    unfold oggDecodeLoop at h
    rcases hi : oggLoopIter N CS ev s with s' | s' | s' | _ <;> rw [hi] at h
    · exact ih s' t h
    · simp only [Option.some.injEq] at h
      subst h
      exact oggAfterLoop_state s'.dc
    · simp only [Option.some.injEq] at h
      subst h
      exact oggAfterLoop_state s'.dc
    · exact absurd h (by simp)

/-- Returns `true` exactly on the end-of-stream exit of an iteration. -/
def IterResult.isExitEof : IterResult → Bool
  | .exitEof _ => true
  | _ => false

/-- C5: when the decoder loop reaches end-of-stream (an `ov_read` of no
bytes) with no stop/seek pending and room in the buffer, it flushes the
remaining scratch bytes as one final chunk — whatever their number, with
no minimum-size cutoff — into slot `end`, exits the read loop, and the
state is then set to `STOP`. -/
theorem C5_final_partial_flush (N CS : Nat) (tell inst : Int) (s : LoopState)
    (hstop : s.dc.stop = false) (hseek : s.dc.seek = false)
    (hfull : oggBufferFull s.cb = false) :
    (oggLoopIter N CS ⟨[], tell, inst⟩ s).isExitEof = true ∧
    (∀ t, (oggLoopIter N CS ⟨[], tell, inst⟩ s).stateOf = some t →
      t.cb.chunks s.cb.«end» = s.scratch ∧
      t.cb.chunkSize s.cb.«end» = s.scratch.length) ∧
    (oggDecodeLoop N CS [⟨[], tell, inst⟩] s).isSome = true ∧
    (∀ t, oggDecodeLoop N CS [⟨[], tell, inst⟩] s = some t →
      t.dc.state = DecodeState.stop) := by
  have hseekEq : oggHandleSeek s = s := by
    unfold oggHandleSeek
    rw [if_neg (by simp [hseek])]
  obtain ⟨t0, hflush, hchunk, hsize⟩ :
      ∃ t0, oggFlushChunk N tell inst
          ⟨s.cb, s.vf, s.dc, s.scratch ++ [], s.bitRate⟩ = .pushed t0 ∧
        t0.cb.chunks s.cb.«end» = s.scratch ∧
        t0.cb.chunkSize s.cb.«end» = s.scratch.length := by
    unfold oggFlushChunk
    rw [if_neg (by simp [hfull, hstop]), if_neg (by simp [hstop]),
        if_neg (by simp [hseek])]
    refine ⟨_, rfl, ?_, ?_⟩
    · dsimp only
      split <;> simp
    · dsimp only
      split <;> simp
  have hIter : oggLoopIter N CS ⟨[], tell, inst⟩ s = .exitEof t0 := by
    unfold oggLoopIter
    rw [hseekEq]
    dsimp only
    rw [if_pos (by simp), hflush]
    rfl
  refine ⟨?_, ?_, ?_, ?_⟩
  · rw [hIter]
    rfl
  · intro t ht
    rw [hIter] at ht
    simp only [IterResult.stateOf, Option.some.injEq] at ht
    subst ht
    exact ⟨hchunk, hsize⟩
  · unfold oggDecodeLoop
    rw [hIter]
    rfl
  · intro t ht
    exact oggDecodeLoop_stop N CS _ s t ht

/-- Loop state holding a 3-byte partial chunk (below any chunk size),
quiet control flags, room in the buffer. -/
def sC5 : LoopState := ⟨cbC3, ⟨[]⟩, dcQuiet, [1, 2, 3], 0⟩

/-- Witness for C5 on `sC5`: the 3-byte partial chunk is flushed whole at
end-of-stream (chunk size 8) and the loop ends in `STOP`. -/
theorem C5_witness :
    oggBufferFull sC5.cb = false ∧
    (oggLoopIter 4 8 ⟨[], 0, 0⟩ sC5).isExitEof = true ∧
    (oggDecodeLoop 4 8 [⟨[], 0, 0⟩] sC5).isSome = true := by
  have h := C5_final_partial_flush 4 8 0 0 sC5 rfl rfl rfl
  exact ⟨rfl, h.1, h.2.2.1⟩

/-! ## Claim C6 -/

/-- A control block still in the initial `START` state. -/
def dcStart : DecoderControl := ⟨.start, true, false, false, 0⟩

/-- The final state of `oggDecodeLoop 4 8 [⟨[], 0, 0⟩] sC5`: the partial
chunk flushed into slot 0 and the state set to `STOP`. -/
def sC5exit : LoopState :=
  ⟨{ chunks := fun i => if i = 0 then [1, 2, 3] else [],
     chunkSize := fun i => if i = 0 then 3 else 0,
     times := fun i => if i = 0 then 0 else 0,
     bitRate := fun i => if i = 0 then 0 else 0,
     «begin» := 0, «end» := 1, wrap := false, totalTime := 0 },
   ⟨[]⟩, ⟨.stop, false, false, false, 0⟩, [], 0⟩

/-- Counterexample to C6.  When opening the source fails, `ogg_decode`
returns `-1` and pushes nothing, but it does not set the shared
decoder-control state to ERROR: the state is left exactly as the caller
set it (here `START`). -/
theorem C6_counterexample :
    (ogg_decode 4 8 false true ⟨2, 44100⟩ 0 [] cbC3 ⟨16, 2, 44100⟩ dcStart).ret = -1 ∧
    (ogg_decode 4 8 false true ⟨2, 44100⟩ 0 [] cbC3 ⟨16, 2, 44100⟩ dcStart).dc.state
      = DecodeState.start ∧
    ¬ (ogg_decode 4 8 false true ⟨2, 44100⟩ 0 [] cbC3 ⟨16, 2, 44100⟩ dcStart).dc.state
      = DecodeState.error := by
  refine ⟨rfl, rfl, ?_⟩
  intro h
  exact absurd h (by decide)

/-- C6 (amended): on source-open failure and on bit-stream/format
negotiation failure the decoder pushes no chunks and returns `-1`,
leaving the control block (and buffer and audio format) untouched — it
does not set the state to ERROR; and whenever the decode loop itself
finishes, the state it sets is `STOP`, never ERROR (mid-stream read
failures are folded into end-of-stream). -/
theorem C6_open_failure_no_error_state :
    (∀ (N CS : Nat) (ovOpenOk : Bool) (vi : VorbisInfo) (tt : Int)
        (reads : List ReadEvent) (cb0 : OggBuffer) (af0 : AudioFormat)
        (dc0 : DecoderControl),
      (ogg_decode N CS false ovOpenOk vi tt reads cb0 af0 dc0).ret = -1 ∧
      (ogg_decode N CS false ovOpenOk vi tt reads cb0 af0 dc0).dc = dc0 ∧
      (ogg_decode N CS false ovOpenOk vi tt reads cb0 af0 dc0).cb = cb0 ∧
      (ogg_decode N CS false ovOpenOk vi tt reads cb0 af0 dc0).af = af0) ∧
    (∀ (N CS : Nat) (vi : VorbisInfo) (tt : Int) (reads : List ReadEvent)
        (cb0 : OggBuffer) (af0 : AudioFormat) (dc0 : DecoderControl),
      (ogg_decode N CS true false vi tt reads cb0 af0 dc0).ret = -1 ∧
      (ogg_decode N CS true false vi tt reads cb0 af0 dc0).dc = dc0 ∧
      (ogg_decode N CS true false vi tt reads cb0 af0 dc0).cb = cb0 ∧
      (ogg_decode N CS true false vi tt reads cb0 af0 dc0).af = af0) ∧
    (∀ (N CS : Nat) (reads : List ReadEvent) (s t : LoopState),
      oggDecodeLoop N CS reads s = some t → t.dc.state = DecodeState.stop) := by
  refine ⟨?_, ?_, ?_⟩
  · intro N CS ovOpenOk vi tt reads cb0 af0 dc0
    exact ⟨rfl, rfl, rfl, rfl⟩
  · intro N CS vi tt reads cb0 af0 dc0
    exact ⟨rfl, rfl, rfl, rfl⟩
  · exact fun N CS reads s t h => oggDecodeLoop_stop N CS reads s t h

/-- Witness for C6's amended theorem: the concrete failed open returns
`-1`, and the concrete successful loop run ends in `STOP`. -/
theorem C6_witness :
    (ogg_decode 4 8 false true ⟨2, 44100⟩ 0 [] cbC3 ⟨16, 2, 44100⟩ dcStart).ret = -1 ∧
    sC5exit.dc.state = DecodeState.stop :=
  ⟨(C6_open_failure_no_error_state.1 4 8 true ⟨2, 44100⟩ 0 [] cbC3 ⟨16, 2, 44100⟩ dcStart).1,
   C6_open_failure_no_error_state.2.2 4 8 [⟨[], 0, 0⟩] sC5 sC5exit rfl⟩

/-! ## Claim C7 -/

/-- A recorder sink before `Open`: no file, no descriptor, encoder
closed. -/
def stClosed : RecorderState := ⟨false, false, [], ⟨false, []⟩⟩

/-- C7: if any step of `RecorderOutput::Open` fails — destination
creation, encoder open, or draining the initial encoder header bytes —
all previously completed steps are undone: the descriptor is closed, the
created file is removed, and the encoder is not left open; `Open` reports
failure with no destination artifact. -/
theorem C7_open_rollback (openFileOk encOpenOk : Bool) (headerBytes : List Nat)
    (oracle : List WriteRes) (st : RecorderState)
    (hf : st.fileExists = false) (hd : st.fdOpen = false)
    (he : st.enc.isOpen = false)
    (hfail : (recorderOpen openFileOk encOpenOk headerBytes oracle st).1 = false) :
    (recorderOpen openFileOk encOpenOk headerBytes oracle st).2.fileExists = false ∧
    (recorderOpen openFileOk encOpenOk headerBytes oracle st).2.fdOpen = false ∧
    (recorderOpen openFileOk encOpenOk headerBytes oracle st).2.enc.isOpen = false := by
  cases openFileOk with
  | false => exact ⟨hf, hd, he⟩
  | true =>
    cases encOpenOk with
    | false => exact ⟨rfl, rfl, he⟩
    | true =>
      have hres : recorderOpen true true headerBytes oracle st =
          (if (encoderToFile oracle ⟨true, headerBytes⟩ []).1 then
             (true, ⟨true, true, (encoderToFile oracle ⟨true, headerBytes⟩ []).2.2.1,
                     (encoderToFile oracle ⟨true, headerBytes⟩ []).2.1⟩)
           else
             (false, ⟨false, false, [],
                      encoder_close (encoderToFile oracle ⟨true, headerBytes⟩ []).2.1⟩)) := rfl
      rw [hres] at hfail ⊢
      cases hdOk : (encoderToFile oracle ⟨true, headerBytes⟩ []).1 with
      | true =>
        rw [hdOk] at hfail
        simp at hfail
      | false =>
        simp only [Bool.false_eq_true, if_false]
        exact ⟨trivial, trivial, rfl⟩

/-- Witness for C7: opening on the fresh sink with a failing encoder open
reports failure and leaves no file, no open descriptor, no open
encoder. -/
theorem C7_witness :
    stClosed.fileExists = false ∧
    ((recorderOpen true false [] [] stClosed).2.fileExists = false ∧
     (recorderOpen true false [] [] stClosed).2.fdOpen = false ∧
     (recorderOpen true false [] [] stClosed).2.enc.isOpen = false) :=
  ⟨rfl, C7_open_rollback true false [] [] stClosed rfl rfl rfl rfl⟩

/-! ## Claim C8 -/

/-- A recorder sink after a successful `Open`: file present, descriptor
and encoder open, nothing pending. -/
def stOpen : RecorderState := ⟨true, true, [], ⟨true, []⟩⟩

/-- Counterexample to C8.  For the degenerate call `Play(chunk, 0)` with
a failing encoder write, `Play` returns 0 — which equals the input
length — although the steps did not succeed: the claimed "if and only if"
fails at input length 0. -/
theorem C8_counterexample :
    ¬ ((recorderPlay false [] [] 0 stOpen).1 = 0 ↔
        ((encoder_write false [] stOpen.enc).1 = true ∧
         (encoderToFile [] (encoder_write false [] stOpen.enc).2 stOpen.fileBytes).1
           = true)) := by
  intro h
  have h2 := h.mp rfl
  exact absurd h2.1 (by decide)

/-- C8 (amended): `Play` returns the input length whenever both the
encoder write and the full drain succeed, and returns 0 on any failure of
either step (the drain is not even attempted after a failed write); for
every call with nonzero input length the return value equals the input
length if and only if both steps succeed. -/
theorem C8_play_returns (writeOk : Bool) (produced : List Nat)
    (oracle : List WriteRes) (size : Nat) (st : RecorderState) :
    ((encoder_write writeOk produced st.enc).1 = true ∧
       (encoderToFile oracle (encoder_write writeOk produced st.enc).2 st.fileBytes).1
         = true →
     (recorderPlay writeOk produced oracle size st).1 = size) ∧
    (¬((encoder_write writeOk produced st.enc).1 = true ∧
       (encoderToFile oracle (encoder_write writeOk produced st.enc).2 st.fileBytes).1
         = true) →
     (recorderPlay writeOk produced oracle size st).1 = 0) ∧
    (0 < size →
      ((recorderPlay writeOk produced oracle size st).1 = size ↔
       ((encoder_write writeOk produced st.enc).1 = true ∧
        (encoderToFile oracle (encoder_write writeOk produced st.enc).2 st.fileBytes).1
          = true))) := by
  unfold recorderPlay
  dsimp only
  cases hw : (encoder_write writeOk produced st.enc).1 with
  | false =>
    simp only [Bool.false_eq_true, if_false, false_and]
    refine ⟨fun h1 => h1.elim, fun _ => trivial, fun hsz => ?_⟩
    constructor
    · intro h0
      omega
    · exact fun h => h.elim
  | true =>
    rw [if_pos rfl]
    dsimp only
    cases hd : (encoderToFile oracle (encoder_write writeOk produced st.enc).2
        st.fileBytes).1 with
    | false =>
      simp only [Bool.false_eq_true, if_false, and_false]
      refine ⟨fun h1 => h1.elim, fun _ => trivial, fun hsz => ?_⟩
      constructor
      · intro h0
        omega
      · exact fun h => h.elim
    | true =>
      rw [if_pos rfl]
      exact ⟨fun _ => rfl, fun hcon => absurd ⟨rfl, rfl⟩ hcon,
             fun _ => ⟨fun _ => ⟨rfl, rfl⟩, fun _ => rfl⟩⟩

/-- Witness for C8's amended theorem: `Play` of a 5-byte chunk whose
encoding produces one pending byte, drained by one successful write,
returns 5. -/
theorem C8_witness :
    0 < 5 ∧ (recorderPlay true [3] [WriteRes.wrote 1] 5 stOpen).1 = 5 := by
  refine ⟨by decide, ?_⟩
  have hdrain : (encoderToFile [WriteRes.wrote 1]
      (encoder_write true [3] stOpen.enc).2 stOpen.fileBytes).1 = true := by
    rw [encoderToFile]
    simp only [encoder_read, encoder_write, stOpen]
    norm_num [writeToFile]
    rw [encoderToFile]
    simp [encoder_read]
  exact (C8_play_returns true [3] [WriteRes.wrote 1] 5 stOpen).1 ⟨rfl, hdrain⟩

/-! ## Claim C9 -/

/-- Draining never changes whether the encoder is open. -/
theorem encoderToFile_isOpen (n : Nat) :
    ∀ (oracle : List WriteRes) (e : RecEncoder) (file : List Nat),
      e.pending.length ≤ n →
      ((encoderToFile oracle e file).2.1).isOpen = e.isOpen := by
  induction n with
  | zero =>
    intro oracle e file hlen
    have hnil : e.pending = [] := List.eq_nil_of_length_eq_zero (Nat.le_zero.mp hlen)
    rw [encoderToFile]
    rw [dif_pos (by simp [encoder_read, hnil])]
    rfl
  | succ n ih =>
    intro oracle e file hlen
    rw [encoderToFile]
    by_cases hemp : (encoder_read 32768 e).1.isEmpty = true
    · rw [dif_pos hemp]
      rfl
    · rw [dif_neg hemp]
      dsimp only
      by_cases hw : (writeToFile oracle (encoder_read 32768 e).1).1 = true
      · rw [if_pos hw]
        have hlen2 : (encoder_read 32768 e).2.pending.length ≤ n := by
          have hne : e.pending ≠ [] := by
            intro he
            exact hemp (by simp [encoder_read, he])
          have hpos : 0 < e.pending.length := List.length_pos.mpr hne
          simp only [encoder_read, List.length_drop]
          omega
        exact ih _ _ _ hlen2
      · rw [if_neg hw]
        rfl

/-- With one fully-successful `write` outcome available per pending
chunk, the drain succeeds. -/
theorem encoderToFile_replicate_true (n : Nat) :
    ∀ (e : RecEncoder) (file : List Nat), e.pending.length ≤ n →
      (encoderToFile (List.replicate n (WriteRes.wrote 32768)) e file).1 = true := by
  induction n with
  | zero =>
    intro e file hlen
    have hnil : e.pending = [] := List.eq_nil_of_length_eq_zero (Nat.le_zero.mp hlen)
    rw [encoderToFile]
    rw [dif_pos (by simp [encoder_read, hnil])]
  | succ n ih =>
    intro e file hlen
    rw [encoderToFile]
    by_cases hemp : (encoder_read 32768 e).1.isEmpty = true
    · rw [dif_pos hemp]
    · rw [dif_neg hemp]
      dsimp only
      have htake : (encoder_read 32768 e).1.length ≤ 32768 := by
        simp only [encoder_read]
        exact le_trans (List.length_take_le 32768 e.pending) (le_refl _)
      have hne : (encoder_read 32768 e).1 ≠ [] := by
        intro hx
        exact hemp (by simp [hx])
      have hwf : writeToFile (List.replicate (n + 1) (WriteRes.wrote 32768))
          (encoder_read 32768 e).1 =
          (true, (encoder_read 32768 e).1, List.replicate n (WriteRes.wrote 32768)) := by
        rw [List.replicate_succ]
        unfold writeToFile
        rw [if_neg (by norm_num)]
        dsimp only
        rw [if_pos (by simp [List.drop_eq_nil_of_le htake])]
        rw [List.take_of_length_le htake]
      rw [hwf]
      dsimp only
      rw [if_pos rfl]
      apply ih
      have hne2 : e.pending ≠ [] := by
        intro he
        exact hne (by simp [encoder_read, he])
      have hpos : 0 < e.pending.length := List.length_pos.mpr hne2
      simp only [encoder_read, List.length_drop]
      omega

/-- Lemma: `Play` on any sink succeeds when the encoder write succeeds and the
write oracle offers one full write per pending chunk. -/
theorem recorderPlay_drain_ok (size : Nat) (st : RecorderState) :
    (recorderPlay true []
      (List.replicate st.enc.pending.length (WriteRes.wrote 32768)) size st).1
      = size := by
  unfold recorderPlay
  dsimp only
  rw [if_pos (show (encoder_write true [] st.enc).1 = true from rfl)]
  have hd : (encoderToFile (List.replicate st.enc.pending.length (WriteRes.wrote 32768))
      (encoder_write true [] st.enc).2 st.fileBytes).1 = true := by
    apply encoderToFile_replicate_true
    simp [encoder_write]
  dsimp only
  rw [if_pos hd]

/-- C9: `SendTag` performs `PreTag`, then a full drain, then `Tag`, with
failures short-circuiting; any failure is only logged — no error is
propagated, the sink stays open (file, descriptor and encoder state
untouched apart from encoder output) — and a subsequent `Play` on the
same sink still succeeds. -/
theorem C9_sendtag_best_effort (preOk : Bool) (preBytes : List Nat)
    (oracle : List WriteRes) (tagOk : Bool) (tagBytes : List Nat)
    (st : RecorderState) (size : Nat) :
    ((recorderSendTag preOk preBytes oracle tagOk tagBytes st).1.fdOpen = st.fdOpen) ∧
    ((recorderSendTag preOk preBytes oracle tagOk tagBytes st).1.fileExists
      = st.fileExists) ∧
    ((recorderSendTag preOk preBytes oracle tagOk tagBytes st).1.enc.isOpen
      = st.enc.isOpen) ∧
    ((recorderSendTag preOk preBytes oracle tagOk tagBytes st).2 = true ↔
      ¬(preOk = true ∧
        (encoderToFile oracle (encoder_pre_tag preOk preBytes st.enc).2
          st.fileBytes).1 = true ∧
        tagOk = true)) ∧
    ((recorderPlay true []
        (List.replicate
          (recorderSendTag preOk preBytes oracle tagOk tagBytes st).1.enc.pending.length
          (WriteRes.wrote 32768))
        size ((recorderSendTag preOk preBytes oracle tagOk tagBytes st).1)).1
      = size) := by
  unfold recorderSendTag encoder_pre_tag encoder_tag
  dsimp only
  cases hp : preOk with
  | false =>
    simp only [Bool.false_eq_true, if_false, Bool.not_false, if_true]
    refine ⟨by trivial, by trivial, by trivial, ?_, ?_⟩
    · constructor
      · rintro _ ⟨h1, _⟩
        cases h1
      · intro _
        trivial
    · exact recorderPlay_drain_ok size _
  | true =>
    simp only [if_true, eq_self_iff_true, Bool.not_true, Bool.false_eq_true, if_false]
    cases hd : (encoderToFile oracle
        (⟨st.enc.isOpen, st.enc.pending ++ preBytes⟩ : RecEncoder) st.fileBytes).1 with
    | false =>
      simp only [Bool.not_false, if_true]
      refine ⟨by trivial, by trivial, ?_, ?_, ?_⟩
      · exact encoderToFile_isOpen (st.enc.pending ++ preBytes).length oracle
          ⟨st.enc.isOpen, st.enc.pending ++ preBytes⟩ st.fileBytes (le_refl _)
      · constructor
        · rintro _ ⟨_, h2, _⟩
          cases h2
        · intro _
          trivial
      · exact recorderPlay_drain_ok size _
    | true =>
      simp only [Bool.not_true, Bool.false_eq_true, if_false]
      cases ht : tagOk with
      | false =>
        simp only [Bool.false_eq_true, if_false, Bool.not_false, if_true]
        refine ⟨by trivial, by trivial, ?_, ?_, ?_⟩
        · exact encoderToFile_isOpen (st.enc.pending ++ preBytes).length oracle
            ⟨st.enc.isOpen, st.enc.pending ++ preBytes⟩ st.fileBytes (le_refl _)
        · constructor
          · rintro _ ⟨_, _, h3⟩
            cases h3
          · intro _
            trivial
        · exact recorderPlay_drain_ok size _
      | true =>
        simp only [if_true, eq_self_iff_true, Bool.not_true, Bool.false_eq_true, if_false]
        refine ⟨by trivial, by trivial, ?_, ?_, ?_⟩
        · exact encoderToFile_isOpen (st.enc.pending ++ preBytes).length oracle
            ⟨st.enc.isOpen, st.enc.pending ++ preBytes⟩ st.fileBytes (le_refl _)
        · constructor
          · intro h
            cases h
          · intro hn
            exact absurd (by refine ⟨?_, ?_, ?_⟩ <;> trivial) hn
        · exact recorderPlay_drain_ok size _

/-! ## Claim C10 -/

/-- A collection pass over items none of which matches the group leaves
both the `found` flag and the map untouched. -/
theorem collectLoop_nomatch (group : TagType) (dur : Int) :
    ∀ (items : List TagItem) (found : Bool) (m : TagCountMap),
      (∀ it ∈ items, it.type ≠ group) →
      collectLoop group dur items found m = (found, m) := by
  intro items
  induction items with
  | nil =>
    intro found m _
    rfl
  | cons it rest ih =>
    intro found m h
    unfold collectLoop
    rw [if_neg (h it (List.mem_cons_self it rest))]
    exact ih found m (fun x hx => h x (List.mem_cons_of_mem it hx))

/-- Pointwise characterization of a collection pass: the entry of a value
`v` is untouched when no item matches `(group, v)`, and otherwise gains
the number of matching items in its song count and, when the duration is
not negative, that number times the duration in its play time. -/
theorem collectLoop_char (group : TagType) (dur : Int) :
    ∀ (items : List TagItem) (found : Bool) (m : TagCountMap) (v : String),
      (collectLoop group dur items found m).2 v =
        if occCount group v items = 0 then m v
        else
          some ⟨((m v).getD ⟨0, 0⟩).n_songs + occCount group v items,
                ((m v).getD ⟨0, 0⟩).total_duration +
                  (if dur < 0 then 0 else (occCount group v items : Int) * dur)⟩ := by
  intro items
  induction items with
  | nil =>
    intro found m v
    simp [collectLoop, occCount]
  | cons it rest ih =>
    intro found m v
    by_cases hty : it.type = group
    · by_cases hv : it.value = v
      · have hocc : occCount group v (it :: rest) = 1 + occCount group v rest := by
          simp [occCount, hty, hv]
        unfold collectLoop
        rw [if_pos hty, ih, hocc]
        subst hv
        rw [if_pos (show it.value = it.value from rfl)]
        have h1 : ¬(1 + occCount group it.value rest = 0) := by omega
        rw [if_neg h1]
        simp only [Option.getD_some]
        by_cases hdur : dur < 0
        · simp only [if_pos hdur]
          by_cases hz : occCount group it.value rest = 0
          · rw [if_pos hz, hz]
            simp
          · rw [if_neg hz]
            simp only [Option.some.injEq, SearchStats.mk.injEq]
            exact ⟨by omega, by ring_nf⟩
        · simp only [if_neg hdur]
          by_cases hz : occCount group it.value rest = 0
          · rw [if_pos hz, hz]
            simp only [Option.some.injEq, SearchStats.mk.injEq]
            exact ⟨trivial, by push_cast; norm_num⟩
          · rw [if_neg hz]
            simp only [Option.some.injEq, SearchStats.mk.injEq]
            exact ⟨by omega, by push_cast; ring⟩
      · have hocc : occCount group v (it :: rest) = occCount group v rest := by
          simp [occCount, hv]
        unfold collectLoop
        rw [if_pos hty]
        rw [ih]
        rw [hocc]
        have hne : ¬ v = it.value := fun hc => hv hc.symm
        simp only [if_neg hne]
    · have hocc : occCount group v (it :: rest) = occCount group v rest := by
        simp [occCount, hty]
      unfold collectLoop
      rw [if_neg hty]
      rw [ih]
      rw [hocc]

/-- A collection pass with a negative duration never adds to any entry's
play time. -/
theorem collectLoop_td_neg (group : TagType) (dur : Int) (hdur : dur < 0)
    (items : List TagItem) (found : Bool) (m : TagCountMap) (v : String) :
    (((collectLoop group dur items found m).2 v).getD ⟨0, 0⟩).total_duration =
      ((m v).getD ⟨0, 0⟩).total_duration := by
  rw [collectLoop_char]
  by_cases hz : occCount group v items = 0
  · rw [if_pos hz]
  · rw [if_neg hz]
    simp [hdur]

/-- C10: in grouped song counting, a visited song whose tag has no item
of the requested group type is accumulated under each of its Artist tag
values instead when the requested group is AlbumArtist; for any other
group type such a song contributes to no group entry; and a negative song
duration is never added to any group's play time. -/
theorem C10_group_count_fallback (m : TagCountMap) (group : TagType)
    (song : LightSong) :
    ((∀ it ∈ song.tag.items, it.type ≠ group) →
      ((group = TagType.albumArtist →
         (∀ v, GroupCountVisitor m group song v =
            (CollectGroupCounts m TagType.artist song.tag).2 v) ∧
         (∀ v, occCount TagType.artist v song.tag.items ≠ 0 →
            GroupCountVisitor m group song v =
              some ⟨((m v).getD ⟨0, 0⟩).n_songs
                      + occCount TagType.artist v song.tag.items,
                    ((m v).getD ⟨0, 0⟩).total_duration +
                      (if song.tag.duration < 0 then 0
                       else (occCount TagType.artist v song.tag.items : Int) *
                         song.tag.duration)⟩)) ∧
       (group ≠ TagType.albumArtist →
         ∀ v, GroupCountVisitor m group song v = m v))) ∧
    (song.tag.duration < 0 →
      ∀ v, ((GroupCountVisitor m group song v).getD ⟨0, 0⟩).total_duration =
             ((m v).getD ⟨0, 0⟩).total_duration) := by
  constructor
  · intro h
    have hno : CollectGroupCounts m group song.tag = (false, m) :=
      collectLoop_nomatch group song.tag.duration song.tag.items false m h
    constructor
    · intro hg
      constructor
      · intro v
        unfold GroupCountVisitor
        rw [hno]
        rw [if_pos ⟨rfl, hg⟩]
      · intro v hocc
        unfold GroupCountVisitor
        rw [hno]
        rw [if_pos ⟨rfl, hg⟩]
        unfold CollectGroupCounts
        rw [collectLoop_char]
        rw [if_neg hocc]
    · intro hg v
      unfold GroupCountVisitor
      rw [hno]
      rw [if_neg (fun hc => hg hc.2)]
  · intro hdur v
    unfold GroupCountVisitor CollectGroupCounts
    split
    · rw [collectLoop_td_neg TagType.artist song.tag.duration hdur]
      rw [collectLoop_td_neg group song.tag.duration hdur]
    · rw [collectLoop_td_neg group song.tag.duration hdur]

/-- A song tagged only `Artist = "a"`, 30 time units long. -/
def songEx : LightSong := ⟨⟨[⟨.artist, "a"⟩], 30⟩⟩

/-- The empty tag-count map. -/
def mapEx : TagCountMap := fun _ => none

/-- Witness for C10: counting `songEx` grouped by AlbumArtist files it
under its artist value "a" with one song and play time 30. -/
theorem C10_witness :
    GroupCountVisitor mapEx TagType.albumArtist songEx "a" = some ⟨1, 30⟩ := by
  have h := (C10_group_count_fallback mapEx TagType.albumArtist songEx).1 (by decide)
  have h2 := (h.1 rfl).2 "a" (by decide)
  rw [h2]
  decide
